import Mathlib

/-!
Verification of the SVG-comparison orchestrator (`compare.py`, with
`pelican_compare.py` an identical-in-the-relevant-parts variant).

The development shallowly embeds the orchestrator core: the cache key
composition, the SVG extraction and sanitization helpers, the three backend
adapters (`call_gemini`, `call_claude`, `call_codex`), the task matrix
construction and cache merge in `main`, and a small transition system for
the capacity-1 codex gate.  External effects (the HTTP client, the spawned
subprocesses, the environment) are supplied as explicit outcome values; the
embedded functions transcribe what the Python code does with those outcomes.
-/

namespace SvgCompare

/-! ### Character/string helpers (regex semantics, transcribed) -/

/-- Case folding used by `re.IGNORECASE` on the ASCII patterns involved. -/
def lc (c : Char) : Char := c.toLower

/-- `startsWithCI pat cs`: the pattern `pat` matches at the head of `cs`,
case-insensitively (each pattern char compared after case folding). -/
def startsWithCI : List Char → List Char → Bool
  | [], _ => true
  | _ :: _, [] => false
  | p :: ps, c :: cs => lc p = lc c && startsWithCI ps cs

/-- `containsCI pat cs`: `pat` matches case-insensitively at some position of `cs`. -/
def containsCI (pat : List Char) : List Char → Bool
  | [] => startsWithCI pat []
  | c :: cs => startsWithCI pat (c :: cs) || containsCI pat cs

/-- Index of the first position of `cs` where `pat` matches case-insensitively. -/
def findIdxCI (pat : List Char) : List Char → Option Nat
  | [] => if startsWithCI pat [] then some 0 else none
  | c :: cs =>
      if startsWithCI pat (c :: cs) then some 0
      else (findIdxCI pat cs).map (· + 1)

def openTag : List Char := ['<', 's', 'v', 'g']

def closeTag : List Char := ['<', '/', 's', 'v', 'g', '>']

/-! ### `extract_svg` (compare.py lines 328-330)

`re.search(r"(<svg[\s\S]*?</svg>)", text, re.IGNORECASE)`: the regex engine
tries each start position left to right; at a position it requires the
literal `<svg` (case-insensitive), and the lazy `[\s\S]*?` then extends to
the first later occurrence of `</svg>`.  `scanClose` performs the lazy part:
it returns the chars up to and including the first close tag. -/

def scanClose : List Char → Option (List Char)
  | [] => none
  | c :: cs =>
      if startsWithCI closeTag (c :: cs) then some ((c :: cs).take 6)
      else match scanClose cs with
           | some r => some (c :: r)
           | none => none

def extractAux : List Char → Option (List Char)
  | [] => none
  | c :: cs =>
      if startsWithCI openTag (c :: cs) then
        match scanClose ((c :: cs).drop 4) with
        | some body => some ((c :: cs).take 4 ++ body)
        | none => extractAux cs
      else extractAux cs

/-- `extract_svg` from the source: the regex match if any, else `""`. -/
def extract_svg (text : String) : String :=
  match extractAux text.data with
  | some m => String.mk m
  | none => ""

/-! Spec-side formulation of the extraction rule.  Modelled from the spec:
"locate the first substring that begins with a case-insensitive opening tag
and ends with the matching closing tag, using the shortest (non-greedy)
match spanning any intervening content including newlines".  The first
opening position is the least position where `<svg` matches with some later
`</svg>`; the match then ends at the first close tag after the opening. -/

/-- A position opens a match: `<svg` here, and `</svg>` somewhere after it. -/
def opensMatch (cs : List Char) : Bool :=
  startsWithCI openTag cs && containsCI closeTag (cs.drop 4)

/-- Least position of `cs` at which a match opens. -/
def firstOpenIdx : List Char → Option Nat
  | [] => none
  | c :: cs =>
      if opensMatch (c :: cs) then some 0
      else (firstOpenIdx cs).map (· + 1)

/-- The extraction rule as the spec words it: take the first opening
position `i`, then the shortest extension to a closing tag. -/
def specAux (cs : List Char) : Option (List Char) :=
  match firstOpenIdx cs with
  | some i =>
      match findIdxCI closeTag ((cs.drop i).drop 4) with
      | some k => some ((cs.drop i).take (4 + k + 6))
      | none => none
  | none => none

def extract_svg_spec (text : String) : String :=
  match specAux text.data with
  | some m => String.mk m
  | none => ""

/-! ### `sanitize_svg` (compare.py lines 332-336)

`re.sub(r"<script[\s\S]*?</script>", "", svg, flags=re.IGNORECASE)`: scan
left to right; wherever `<script` matches with a later `</script>`, delete
the shortest such span and continue after it; otherwise keep the char. -/

def scriptOpen : List Char := ['<', 's', 'c', 'r', 'i', 'p', 't']

def scriptClose : List Char := ['<', '/', 's', 'c', 'r', 'i', 'p', 't', '>']

/-- Fueled scan; each recursive call strictly shrinks the list, so fuel equal
to the list length always suffices (see `sanitizeFuel_indep`). -/
def sanitizeFuel : Nat → List Char → List Char
  | _, [] => []
  | 0, _ :: _ => []
  | fuel + 1, c :: cs =>
      if startsWithCI scriptOpen (c :: cs) then
        match findIdxCI scriptClose ((c :: cs).drop 7) with
        | some k => sanitizeFuel fuel (((c :: cs).drop 7).drop (k + 9))
        | none => c :: sanitizeFuel fuel cs
      else c :: sanitizeFuel fuel cs

def sanitizeAux (cs : List Char) : List Char :=
  sanitizeFuel cs.length cs

def sanitize_svg (svg : String) : String :=
  String.mk (sanitizeAux svg.data)

/-! ### Data model -/

/-- The normalized result dict produced by one adapter invocation:
`{"provider": ..., "svg": ... or None, "error": ... or None}`. -/
structure Result where
  provider : String
  svg : Option String
  error : Option String
deriving Repr, DecidableEq

/-- `cache_key` (compare.py lines 325-326, pelican_compare.py lines 93-94). -/
def cache_key (prompt_id model : String) : String :=
  prompt_id ++ "::" ++ model

/-- Python truthiness of `result.get("svg")`: `None` and `""` are falsy. -/
def truthyOpt : Option String → Bool
  | some s => !(s == "")
  | none => false

/-! ### The JSON cache as an insertion-ordered key→Result mapping -/

abbrev Cache := List (String × Result)

/-- `cache.get(k)` / `k in cache`. -/
def dictGet : Cache → String → Option Result
  | [], _ => none
  | (k', v) :: rest, k => if k' = k then some v else dictGet rest k

/-- `cache[k] = v`: replace an existing binding in place, else append. -/
def dictInsert : Cache → String → Result → Cache
  | [], k, v => [(k, v)]
  | (k', v') :: rest, k, v =>
      if k' = k then (k, v) :: rest else (k', v') :: dictInsert rest k v

/-! ### Prompt catalog and model roster (compare.py lines 26-235, 296-312, 445-449) -/

def PROMPT_IDS : List String :=
  ["pelican", "indian", "animated_pelican", "animated_indian", "scientist",
   "wedding", "indian_wedding", "elephant_zoo", "animated_scientist",
   "animated_wedding", "animated_indian_wedding", "animated_elephant",
   "diwali", "animated_diwali", "peacock", "animated_peacock", "chess",
   "animated_chess", "macbook_pro", "animated_macbook_pro", "surface_laptop",
   "animated_surface_laptop", "archery", "animated_archery", "cricket",
   "animated_cricket", "rickshaw", "animated_indian_cyclist"]

def GEMINI_MODELS : List String :=
  ["gemini-3-flash-preview", "gemini-3-pro-preview", "gemini-3.1-pro-preview"]

def CLAUDE_MODELS : List String :=
  ["claude-sonnet-4-5", "claude-sonnet-4-6", "claude-opus-4-5", "claude-opus-4-6"]

def CODEX_MODELS : List String :=
  ["gpt-5.3-codex", "gpt-5.2-codex"]

/-- The (model, provider-family) roster, in source order: Gemini models,
then Claude models, then Codex models. -/
def ALL_MODELS_ORDERED : List (String × String) :=
  GEMINI_MODELS.map (fun m => (m, "Gemini"))
    ++ CLAUDE_MODELS.map (fun m => (m, "Claude"))
    ++ CODEX_MODELS.map (fun m => (m, "Codex"))

def CLAUDE_TIMEOUT : Nat := 600

def CODEX_TIMEOUT : Nat := 300

/-! ### Python string idioms used by the adapters -/

/-- Python `a or b` on strings: `""` is falsy. -/
def pyOrS (a b : String) : String := if a = "" then b else a

/-- `os.environ.get(K) or d`: `None` or `""` fall through to `d`. -/
def pyGetOr (a : Option String) (d : String) : String :=
  match a with
  | some s => pyOrS s d
  | none => d

def isPySpace (c : Char) : Bool :=
  c = ' ' || c = '\t' || c = '\n' || c = '\r' || c = '\x0b' || c = '\x0c'

/-- Python `str.strip()` (ASCII whitespace). -/
def pyStrip (s : String) : String :=
  String.mk (((s.data.dropWhile isPySpace).reverse.dropWhile isPySpace).reverse)

/-! ### The remote-API adapter `call_gemini` (compare.py lines 349-362)

The environment and the two external calls — `genai.Client(...)` and
`client.aio.models.generate_content(...)` — are supplied as outcome values:
`Except.error` is an exception raised by that external call.  The adapter's
return type is `Except String Result`: `.error` means an exception escaped
`call_gemini` itself (the `try` block on lines 354-362 does NOT cover the
key lookup and client construction on lines 351-352).  `duration` is the
wall-clock length of the remote call; `call_gemini` imposes no bound on it. -/

structure GeminiEnv where
  google_key : Option String
  gemini_key : Option String
  clientInit : String → Except String Unit
  duration : Nat
  response : Except String String

def call_gemini (env : GeminiEnv) : Except String Result :=
  let api_key := pyGetOr env.google_key (env.gemini_key.getD "")
  match env.clientInit api_key with
  | .error e => .error e
  | .ok _ =>
      match env.response with
      | .error e => .ok { provider := "Gemini", svg := none, error := some e }
      | .ok text =>
          let svg := extract_svg text
          .ok { provider := "Gemini",
                svg := if svg = "" then none else some svg,
                error := if svg = "" then some "No SVG found in response" else none }

/-! ### The subprocess adapters `call_claude` and `call_codex`
(compare.py lines 365-397 and 400-434)

A spawn either raises (caught by the adapter's outermost `try`) or yields a
process run with a wall-clock duration, exit code, and captured streams.
`asyncio.wait_for(..., timeout=N)` times out exactly when the run's duration
exceeds the budget; on that path the code calls `proc.kill()` — recorded in
the `killed` flag of the output. -/

inductive SpawnResult where
  | fail (msg : String)
  | proc (duration : Nat) (returncode : Int) (stdout stderr : String)
deriving Repr, DecidableEq

structure AdapterOut where
  result : Result
  killed : Bool
deriving Repr, DecidableEq

def call_claude (s : SpawnResult) : AdapterOut :=
  match s with
  | .fail msg => ⟨{ provider := "Claude", svg := none, error := some msg }, false⟩
  | .proc d rc out err =>
      if CLAUDE_TIMEOUT < d then
        ⟨{ provider := "Claude", svg := none,
           error := some ("Timed out after " ++ toString CLAUDE_TIMEOUT ++ "s") }, true⟩
      else if rc ≠ 0 then
        ⟨{ provider := "Claude", svg := none,
           error := some (pyOrS (pyStrip err) ("exit code " ++ toString rc)) }, false⟩
      else
        let svg := extract_svg out
        ⟨{ provider := "Claude",
           svg := if svg = "" then none else some svg,
           error := if svg = "" then some "No SVG found in response" else none }, false⟩

def _codex_inner (s : SpawnResult) : AdapterOut :=
  match s with
  | .fail msg => ⟨{ provider := "Codex", svg := none, error := some msg }, false⟩
  | .proc d rc out err =>
      if CODEX_TIMEOUT < d then
        ⟨{ provider := "Codex", svg := none,
           error := some ("Timed out after " ++ toString CODEX_TIMEOUT ++ "s") }, true⟩
      else if rc ≠ 0 then
        ⟨{ provider := "Codex", svg := none,
           error := some (pyOrS (pyStrip err) (pyOrS (pyStrip out) ("exit code " ++ toString rc))) }, false⟩
      else
        let svg := extract_svg out
        ⟨{ provider := "Codex",
           svg := if svg = "" then none else some svg,
           error := if svg = "" then some "No SVG found in response" else none }, false⟩

/-- `call_codex` delegates to `_codex_inner` under the `_codex_sem` gate;
the gate affects scheduling only (modelled separately), not the value. -/
def call_codex (s : SpawnResult) : AdapterOut :=
  _codex_inner s

/-! ### Task matrix and merge step of `main` (compare.py lines 970-998) -/

structure Task where
  pid : String
  model : String
  provider : String
deriving Repr, DecidableEq

/-- The `to_call` list: for each active prompt in order, each roster model
in order whose cache key is absent from the cache. -/
def to_call (active : List String) (cache : Cache) : List Task :=
  active.flatMap (fun pid =>
    (ALL_MODELS_ORDERED.filter
        (fun mp => (dictGet cache (cache_key pid mp.1)).isNone)).map
      (fun mp => ⟨pid, mp.1, mp.2⟩))

/-- The `cached_count` report: active (prompt, model) pairs already cached. -/
def cached_count (active : List String) (cache : Cache) : Nat :=
  (active.flatMap (fun pid =>
    ALL_MODELS_ORDERED.filter
      (fun mp => (dictGet cache (cache_key pid mp.1)).isSome))).length

/-- One iteration of the merge loop: `result["provider"] = provider;
if result.get("svg"): cache[cache_key(pid, m)] = result`. -/
def mergeStep (cache : Cache) (t : Task) (r : Result) : Cache :=
  let r' := { r with provider := t.provider }
  if truthyOpt r'.svg then dictInsert cache (cache_key t.pid t.model) r' else cache

/-- The whole merge loop over the completed (task, result) pairs. -/
def mergeResults (cache : Cache) (completed : List (Task × Result)) : Cache :=
  completed.foldl (fun c tr => mergeStep c tr.1 tr.2) cache

/-- One generation run of `main` on a loaded cache: build the task matrix,
obtain each task's adapter result (`outcome` gives the result the adapter
returned for a (prompt_id, model) task), merge, and save; the saved store
is the full merged mapping. -/
def runMerge (active : List String) (cache : Cache)
    (outcome : String → String → Result) : Cache :=
  mergeResults cache ((to_call active cache).map (fun t => (t, outcome t.pid t.model)))

/-! ### Report embedding (compare.py lines 572-583)

Each card embeds `sanitize_svg(cache.get(cache_key(pid, m), {}).get("svg", ""))`. -/

def embedded_svg (cache : Cache) (pid m : String) : String :=
  sanitize_svg (((dictGet cache (cache_key pid m)).bind (fun r => r.svg)).getD "")

/-! ### The codex concurrency gate (compare.py lines 320, 400-402)

`_codex_sem = asyncio.Semaphore(1)`; `call_codex` acquires it before
spawning (`async with _codex_sem`) and the `async with` releases it on every
exit path.  A small transition system over the batch: each task belongs to a
family and is waiting, running (in its external call), or finished.  Only
codex tasks must hold the semaphore to run; finishing a codex task releases
it unconditionally. -/

inductive Fam where
  | gemini
  | claude
  | codex
deriving Repr, DecidableEq

inductive TState where
  | waiting
  | running
  | finished
deriving Repr, DecidableEq

structure GovState where
  sem : Nat
  tasks : List (Fam × TState)
deriving Repr, DecidableEq

inductive Step : GovState → GovState → Prop
  | acquire (s : GovState) (i : Nat) :
      s.tasks.get? i = some (.codex, .waiting) → 0 < s.sem →
      Step s ⟨s.sem - 1, s.tasks.set i (.codex, .running)⟩
  | enter (s : GovState) (i : Nat) (f : Fam) :
      f ≠ .codex → s.tasks.get? i = some (f, .waiting) →
      Step s ⟨s.sem, s.tasks.set i (f, .running)⟩
  | finishCodex (s : GovState) (i : Nat) :
      s.tasks.get? i = some (.codex, .running) →
      Step s ⟨s.sem + 1, s.tasks.set i (.codex, .finished)⟩
  | finishOther (s : GovState) (i : Nat) (f : Fam) :
      f ≠ .codex → s.tasks.get? i = some (f, .running) →
      Step s ⟨s.sem, s.tasks.set i (f, .finished)⟩

def initState (fams : List Fam) : GovState :=
  ⟨1, fams.map (fun f => (f, .waiting))⟩

inductive Reachable (fams : List Fam) : GovState → Prop
  | init : Reachable fams (initState fams)
  | step {s t : GovState} : Reachable fams s → Step s t → Reachable fams t

/-- Number of codex tasks currently inside their external call. -/
def codexRunning (s : GovState) : Nat :=
  s.tasks.countP (fun p => p.1 == Fam.codex && p.2 == TState.running)

/-! ## Helper lemmas -/

/-- Splitting at a double colon is unambiguous when the left parts are
colon-free. -/
theorem colon_split : ∀ (l₁ l₂ r₁ r₂ : List Char), ':' ∉ l₁ → ':' ∉ l₂ →
    l₁ ++ ':' :: ':' :: r₁ = l₂ ++ ':' :: ':' :: r₂ → l₁ = l₂ ∧ r₁ = r₂
  | [], [], r₁, r₂, _, _, h => by simpa using h
  | [], c :: l₂, r₁, r₂, _, h₂, h => by
      simp only [List.nil_append, List.cons_append, List.cons.injEq] at h
      exact absurd (h.1 ▸ List.mem_cons_self c l₂) h₂
  | c :: l₁, [], r₁, r₂, h₁, _, h => by
      simp only [List.nil_append, List.cons_append, List.cons.injEq] at h
      exact absurd (h.1.symm ▸ List.mem_cons_self c l₁) h₁
  | c :: l₁, d :: l₂, r₁, r₂, h₁, h₂, h => by
      simp only [List.cons_append, List.cons.injEq] at h
      obtain ⟨rfl, h⟩ := h
      obtain ⟨rfl, rfl⟩ := colon_split l₁ l₂ r₁ r₂
        (fun hm => h₁ (List.mem_cons_of_mem _ hm))
        (fun hm => h₂ (List.mem_cons_of_mem _ hm)) h
      exact ⟨rfl, rfl⟩

theorem cache_key_data (p m : String) :
    (cache_key p m).data = p.data ++ ':' :: ':' :: m.data := by
  simp [cache_key, String.data_append]

/-- `cache_key` is injective on pairs whose prompt ids are colon-free. -/
theorem cache_key_inj {p₁ m₁ p₂ m₂ : String}
    (h₁ : ':' ∉ p₁.data) (h₂ : ':' ∉ p₂.data)
    (h : cache_key p₁ m₁ = cache_key p₂ m₂) : p₁ = p₂ ∧ m₁ = m₂ := by
  have hd := congrArg String.data h
  rw [cache_key_data, cache_key_data] at hd
  obtain ⟨hp, hm⟩ := colon_split _ _ _ _ h₁ h₂ hd
  exact ⟨String.ext hp, String.ext hm⟩

/-- `cache_key` is also injective on pairs whose model ids are colon-free
(split at the last double colon instead of the first). -/
theorem cache_key_inj_model {p₁ m₁ p₂ m₂ : String}
    (h₁ : ':' ∉ m₁.data) (h₂ : ':' ∉ m₂.data)
    (h : cache_key p₁ m₁ = cache_key p₂ m₂) : p₁ = p₂ ∧ m₁ = m₂ := by
  have hd := congrArg String.data h
  rw [cache_key_data, cache_key_data] at hd
  have hrev := congrArg List.reverse hd
  simp only [List.reverse_append, List.reverse_cons, List.append_assoc,
    List.nil_append] at hrev
  have hrev' : m₁.data.reverse ++ ':' :: ':' :: p₁.data.reverse
      = m₂.data.reverse ++ ':' :: ':' :: p₂.data.reverse := by
    simpa using hrev
  obtain ⟨hm, hp⟩ := colon_split _ _ _ _
    (by simpa using h₁) (by simpa using h₂) hrev'
  refine ⟨String.ext ?_, String.ext ?_⟩
  · have := congrArg List.reverse hp; simpa using this
  · have := congrArg List.reverse hm; simpa using this

/-! ### Extraction lemmas -/

theorem take_append_take_drop : ∀ (m n : Nat) (l : List α),
    l.take m ++ (l.drop m).take n = l.take (m + n)
  | 0, n, l => by simp
  | m + 1, n, [] => by simp
  | m + 1, n, c :: cs => by
      simp only [List.take_succ_cons, List.drop_succ_cons, List.cons_append]
      rw [take_append_take_drop m n cs]
      have : m + 1 + n = (m + n) + 1 := by omega
      rw [this, List.take_succ_cons]

theorem scanClose_eq_findIdx : ∀ cs : List Char,
    scanClose cs = (findIdxCI closeTag cs).map (fun k => cs.take (k + 6))
  | [] => by simp [scanClose, findIdxCI, startsWithCI, closeTag]
  | c :: cs => by
      cases h : startsWithCI closeTag (c :: cs) with
      | true => simp [scanClose, findIdxCI, h]
      | false =>
          simp only [scanClose, findIdxCI, h]
          rw [scanClose_eq_findIdx cs]
          cases findIdxCI closeTag cs with
          | none => simp
          | some k =>
              have : k + 1 + 6 = (k + 6) + 1 := by omega
              simp [this, List.take_succ_cons]

theorem findIdxCI_isSome (pat : List Char) : ∀ cs : List Char,
    (findIdxCI pat cs).isSome = containsCI pat cs
  | [] => by cases h : startsWithCI pat [] <;> simp [findIdxCI, containsCI, h]
  | c :: cs => by
      cases h : startsWithCI pat (c :: cs) <;>
        simp [findIdxCI, containsCI, h, findIdxCI_isSome pat cs]

theorem specAux_cons_of_not_open (c : Char) (cs : List Char)
    (h : opensMatch (c :: cs) = false) : specAux (c :: cs) = specAux cs := by
  simp only [specAux, firstOpenIdx, h, Bool.false_eq_true, if_false]
  cases firstOpenIdx cs with
  | none => rfl
  | some i => simp [List.drop_succ_cons]

theorem extractAux_eq_specAux : ∀ cs : List Char, extractAux cs = specAux cs
  | [] => by simp [extractAux, specAux, firstOpenIdx]
  | c :: cs => by
      cases ho : startsWithCI openTag (c :: cs) with
      | false =>
          have h1 : extractAux (c :: cs) = extractAux cs := by
            simp [extractAux, ho]
          have h2 : opensMatch (c :: cs) = false := by
            simp [opensMatch, ho]
          rw [h1, extractAux_eq_specAux cs, specAux_cons_of_not_open c cs h2]
      | true =>
          have hdrop : (c :: cs).drop 4 = cs.drop 3 := rfl
          cases hs : scanClose (cs.drop 3) with
          | none =>
              have hfind : findIdxCI closeTag (cs.drop 3) = none := by
                have h := scanClose_eq_findIdx (cs.drop 3)
                rw [hs] at h
                cases hf : findIdxCI closeTag (cs.drop 3) with
                | none => rfl
                | some k => rw [hf] at h; simp at h
              have hcont : containsCI closeTag (cs.drop 3) = false := by
                rw [← findIdxCI_isSome, hfind]; rfl
              have h2 : opensMatch (c :: cs) = false := by
                simp [opensMatch, hdrop, hcont]
              have h1 : extractAux (c :: cs) = extractAux cs := by
                simp [extractAux, ho, hs]
              rw [h1, extractAux_eq_specAux cs, specAux_cons_of_not_open c cs h2]
          | some body =>
              obtain ⟨k, hk, hbody⟩ : ∃ k,
                  findIdxCI closeTag (cs.drop 3) = some k
                    ∧ body = (cs.drop 3).take (k + 6) := by
                have h := scanClose_eq_findIdx (cs.drop 3)
                rw [hs] at h
                cases hf : findIdxCI closeTag (cs.drop 3) with
                | none => rw [hf] at h; simp at h
                | some k =>
                    rw [hf] at h
                    simp only [Option.map] at h
                    exact ⟨k, rfl, by injection h⟩
              have hcont : containsCI closeTag (cs.drop 3) = true := by
                rw [← findIdxCI_isSome, hk]; rfl
              have h2 : opensMatch (c :: cs) = true := by
                simp [opensMatch, ho, hdrop, hcont]
              have h1 : extractAux (c :: cs) = some ((c :: cs).take 4 ++ body) := by
                simp [extractAux, ho, hs]
              rw [h1]
              simp only [specAux, firstOpenIdx, h2, if_true, List.drop_zero, hdrop, hk]
              have h4 : (4 : Nat) + k + 6 = 4 + (k + 6) := by omega
              rw [hbody, h4, ← take_append_take_drop 4 (k + 6) (c :: cs), hdrop]

theorem extract_svg_eq_spec (text : String) :
    extract_svg text = extract_svg_spec text := by
  unfold extract_svg extract_svg_spec
  rw [extractAux_eq_specAux]

/-! ### Sanitization lemmas -/

/-- The fuel is irrelevant as soon as it covers the list length, so
`sanitizeAux` (fuel = length) computes the limit of the scan. -/
theorem sanitizeFuel_indep : ∀ (f₁ f₂ : Nat) (cs : List Char),
    cs.length ≤ f₁ → cs.length ≤ f₂ → sanitizeFuel f₁ cs = sanitizeFuel f₂ cs
  | f₁, f₂, [], _, _ => by cases f₁ <;> cases f₂ <;> rfl
  | f₁ + 1, f₂ + 1, c :: cs, h₁, h₂ => by
      simp only [List.length_cons, Nat.add_le_add_iff_right] at h₁ h₂
      cases ho : startsWithCI scriptOpen (c :: cs) with
      | false =>
          have ih := sanitizeFuel_indep f₁ f₂ cs h₁ h₂
          simp [sanitizeFuel, ho, ih]
      | true =>
          cases hf : findIdxCI scriptClose (cs.drop 6) with
          | none =>
              have ih := sanitizeFuel_indep f₁ f₂ cs h₁ h₂
              simp [sanitizeFuel, ho, hf, ih]
          | some k =>
              have hlen : (cs.drop (6 + (k + 9))).length ≤ cs.length := by
                rw [List.length_drop]; exact Nat.sub_le _ _
              have ih := sanitizeFuel_indep f₁ f₂ (cs.drop (6 + (k + 9)))
                (le_trans hlen h₁) (le_trans hlen h₂)
              simp [sanitizeFuel, ho, hf, ih]

/-- On input with no case-insensitive occurrence of `<script`, the scan is
the identity. -/
theorem sanitizeFuel_id : ∀ (fuel : Nat) (cs : List Char), cs.length ≤ fuel →
    containsCI scriptOpen cs = false → sanitizeFuel fuel cs = cs
  | fuel, [], _, _ => by cases fuel <;> rfl
  | fuel + 1, c :: cs, h, hc => by
      simp only [containsCI, Bool.or_eq_false_iff] at hc
      simp only [List.length_cons, Nat.add_le_add_iff_right] at h
      have ih := sanitizeFuel_id fuel cs h hc.2
      simp [sanitizeFuel, hc.1, ih]

theorem sanitize_svg_id (s : String) (h : containsCI scriptOpen s.data = false) :
    sanitize_svg s = s := by
  unfold sanitize_svg sanitizeAux
  rw [sanitizeFuel_id _ _ (le_refl _) h]

/-! ### Cache dictionary lemmas -/

theorem dictGet_insert_self (c : Cache) (k : String) (v : Result) :
    dictGet (dictInsert c k v) k = some v := by
  induction c with
  | nil => simp [dictInsert, dictGet]
  | cons hd tl ih =>
      obtain ⟨k₀, v₀⟩ := hd
      by_cases h : k₀ = k
      · simp [dictInsert, h, dictGet]
      · simp [dictInsert, h, dictGet, ih]

theorem dictGet_insert_ne (c : Cache) (k k' : String) (v : Result) (h : k ≠ k') :
    dictGet (dictInsert c k v) k' = dictGet c k' := by
  induction c with
  | nil => simp [dictInsert, dictGet, h]
  | cons hd tl ih =>
      obtain ⟨k₀, v₀⟩ := hd
      by_cases h₀ : k₀ = k
      · subst h₀
        simp [dictInsert, dictGet, h]
      · simp [dictInsert, h₀, dictGet, ih]

@[simp] theorem svg_provider_update (r : Result) (p : String) :
    ({ r with provider := p } : Result).svg = r.svg := rfl

/-! ### Merge-loop lemmas -/

theorem mergeResults_cons (cache : Cache) (t : Task) (r : Result)
    (rest : List (Task × Result)) :
    mergeResults cache ((t, r) :: rest) = mergeResults (mergeStep cache t r) rest := rfl

theorem mergeStep_get_ne (cache : Cache) (t : Task) (r : Result) (k : String)
    (h : cache_key t.pid t.model ≠ k ∨ truthyOpt r.svg = false) :
    dictGet (mergeStep cache t r) k = dictGet cache k := by
  simp only [mergeStep, svg_provider_update]
  cases ht : truthyOpt r.svg with
  | false => simp
  | true =>
      rcases h with h | h
      · simp [dictGet_insert_ne _ _ _ _ h]
      · rw [h] at ht; cases ht

theorem mergeStep_get_write (cache : Cache) (t : Task) (r : Result)
    (h : truthyOpt r.svg = true) :
    dictGet (mergeStep cache t r) (cache_key t.pid t.model)
      = some { r with provider := t.provider } := by
  simp only [mergeStep, svg_provider_update, h, if_true]
  exact dictGet_insert_self _ _ _

theorem mergeResults_get_frame : ∀ (completed : List (Task × Result)) (cache : Cache)
    (k : String),
    (∀ tr ∈ completed, cache_key tr.1.pid tr.1.model ≠ k ∨ truthyOpt tr.2.svg = false) →
    dictGet (mergeResults cache completed) k = dictGet cache k
  | [], cache, k, _ => rfl
  | (t, r) :: tl, cache, k, h => by
      rw [mergeResults_cons,
        mergeResults_get_frame tl _ k (fun tr htr => h tr (List.mem_cons_of_mem _ htr)),
        mergeStep_get_ne]
      exact h (t, r) (List.mem_cons_self _ _)

theorem mergeStep_isSome_mono (cache : Cache) (t : Task) (r : Result) (k : String)
    (h : (dictGet cache k).isSome = true) :
    (dictGet (mergeStep cache t r) k).isSome = true := by
  simp only [mergeStep, svg_provider_update]
  cases ht : truthyOpt r.svg with
  | false => simpa using h
  | true =>
      by_cases hk : cache_key t.pid t.model = k
      · subst hk; simp [dictGet_insert_self]
      · simpa [dictGet_insert_ne _ _ _ _ hk] using h

theorem mergeResults_isSome_mono : ∀ (completed : List (Task × Result)) (cache : Cache)
    (k : String), (dictGet cache k).isSome = true →
    (dictGet (mergeResults cache completed) k).isSome = true
  | [], cache, k, h => h
  | (t, r) :: tl, cache, k, h => by
      rw [mergeResults_cons]
      exact mergeResults_isSome_mono tl _ k (mergeStep_isSome_mono cache t r k h)

theorem mergeResults_isSome_of_mem : ∀ (completed : List (Task × Result)) (cache : Cache)
    (k : String) (t : Task) (r : Result), (t, r) ∈ completed →
    cache_key t.pid t.model = k → truthyOpt r.svg = true →
    (dictGet (mergeResults cache completed) k).isSome = true
  | [], _, _, _, _, hmem, _, _ => by cases hmem
  | (t₀, r₀) :: tl, cache, k, t, r, hmem, hk, htr => by
      rw [mergeResults_cons]
      rcases List.mem_cons.1 hmem with heq | htl
      · obtain ⟨rfl, rfl⟩ := Prod.mk.injEq .. ▸ heq
        refine mergeResults_isSome_mono tl _ k ?_
        rw [← hk, mergeStep_get_write cache t r htr]
        rfl
      · exact mergeResults_isSome_of_mem tl _ k t r htl hk htr

theorem mergeResults_get_preserve : ∀ (completed : List (Task × Result)) (cache : Cache)
    (k : String) (v : Result), dictGet cache k = some v →
    (∀ tr ∈ completed, cache_key tr.1.pid tr.1.model = k → truthyOpt tr.2.svg = true →
        ({ tr.2 with provider := tr.1.provider } : Result) = v) →
    dictGet (mergeResults cache completed) k = some v
  | [], cache, k, v, hv, _ => hv
  | (t, r) :: tl, cache, k, v, hv, h => by
      rw [mergeResults_cons]
      refine mergeResults_get_preserve tl _ k v ?_
        (fun tr htr => h tr (List.mem_cons_of_mem _ htr))
      cases ht : truthyOpt r.svg with
      | false => rwa [mergeStep_get_ne cache t r k (Or.inr ht)]
      | true =>
          by_cases hk : cache_key t.pid t.model = k
          · rw [← hk, mergeStep_get_write cache t r ht]
            rw [h (t, r) (List.mem_cons_self _ _) hk ht]
          · rwa [mergeStep_get_ne cache t r k (Or.inl hk)]

theorem mergeResults_get_write : ∀ (completed : List (Task × Result)) (cache : Cache)
    (k : String) (t : Task) (r : Result), (t, r) ∈ completed →
    cache_key t.pid t.model = k → truthyOpt r.svg = true →
    (∀ tr ∈ completed, cache_key tr.1.pid tr.1.model = k → truthyOpt tr.2.svg = true →
        ({ tr.2 with provider := tr.1.provider } : Result)
          = { r with provider := t.provider }) →
    dictGet (mergeResults cache completed) k = some { r with provider := t.provider }
  | [], _, _, _, _, hmem, _, _, _ => by cases hmem
  | (t₀, r₀) :: tl, cache, k, t, r, hmem, hk, htr, huniq => by
      rw [mergeResults_cons]
      rcases List.mem_cons.1 hmem with heq | htl
      · obtain ⟨rfl, rfl⟩ := Prod.mk.injEq .. ▸ heq
        refine mergeResults_get_preserve tl _ k _ ?_
          (fun tr htr' => huniq tr (List.mem_cons_of_mem _ htr'))
        rw [← hk, mergeStep_get_write cache t r htr]
      · exact mergeResults_get_write tl _ k t r htl hk htr
          (fun tr htr' => huniq tr (List.mem_cons_of_mem _ htr'))

theorem mergeResults_get_cases : ∀ (completed : List (Task × Result)) (cache : Cache)
    (k : String) (v : Result),
    dictGet (mergeResults cache completed) k = some v →
    dictGet cache k = some v
      ∨ ∃ tr ∈ completed, k = cache_key tr.1.pid tr.1.model
          ∧ truthyOpt tr.2.svg = true
          ∧ v = { tr.2 with provider := tr.1.provider }
  | [], cache, k, v, h => Or.inl h
  | (t, r) :: tl, cache, k, v, h => by
      rw [mergeResults_cons] at h
      rcases mergeResults_get_cases tl _ k v h with hstep | ⟨tr, htr, hk, htru, hv⟩
      · cases ht : truthyOpt r.svg with
        | false =>
            rw [mergeStep_get_ne cache t r k (Or.inr ht)] at hstep
            exact Or.inl hstep
        | true =>
            by_cases hk : cache_key t.pid t.model = k
            · rw [← hk, mergeStep_get_write cache t r ht] at hstep
              injection hstep with hstep
              exact Or.inr ⟨(t, r), List.mem_cons_self _ _, hk.symm, ht, hstep.symm⟩
            · rw [mergeStep_get_ne cache t r k (Or.inl hk)] at hstep
              exact Or.inl hstep
      · exact Or.inr ⟨tr, List.mem_cons_of_mem _ htr, hk, htru, hv⟩

/-! ### Task matrix lemmas -/

theorem mem_to_call (active : List String) (cache : Cache) (t : Task) :
    t ∈ to_call active cache
      ↔ t.pid ∈ active ∧ (t.model, t.provider) ∈ ALL_MODELS_ORDERED
          ∧ dictGet cache (cache_key t.pid t.model) = none := by
  unfold to_call
  simp only [List.mem_flatMap, List.mem_map, List.mem_filter]
  constructor
  · rintro ⟨pid, hpid, mp, ⟨hmp, hnone⟩, rfl⟩
    exact ⟨hpid, hmp, by simpa [Option.isNone_iff_eq_none] using hnone⟩
  · rintro ⟨hpid, hmp, hnone⟩
    exact ⟨t.pid, hpid, (t.model, t.provider), ⟨hmp, by simp [hnone]⟩, rfl⟩

/-- The full (prompt-major, roster-ordered) matrix of tasks for a scope. -/
def fullMatrix (active : List String) : List Task :=
  active.flatMap (fun pid => ALL_MODELS_ORDERED.map (fun mp => ⟨pid, mp.1, mp.2⟩))

theorem to_call_sublist (active : List String) (cache : Cache) :
    List.Sublist (to_call active cache) (fullMatrix active) := by
  unfold to_call fullMatrix
  induction active with
  | nil => simp
  | cons pid rest ih =>
      simp only [List.flatMap_cons]
      exact ((List.filter_sublist _).map _).append ih

theorem length_filter_opt {α β : Type} (g : α → Option β) : ∀ l : List α,
    (l.filter (fun a => (g a).isSome)).length
      + (l.filter (fun a => (g a).isNone)).length = l.length
  | [] => rfl
  | a :: l => by
      have ih := length_filter_opt g l
      cases h : g a <;> simp [h] <;> omega

theorem cached_count_add_to_call (active : List String) (cache : Cache) :
    cached_count active cache + (to_call active cache).length
      = active.length * ALL_MODELS_ORDERED.length := by
  unfold cached_count to_call
  induction active with
  | nil => rfl
  | cons pid rest ih =>
      simp only [List.flatMap_cons, List.length_append, List.length_map,
        List.length_cons]
      have h := length_filter_opt (fun mp => dictGet cache (cache_key pid mp.1))
        ALL_MODELS_ORDERED
      rw [Nat.succ_mul]
      omega

theorem to_call_after_success (active : List String) (cache : Cache)
    (outcome : String → String → Result)
    (h : ∀ t ∈ to_call active cache, truthyOpt (outcome t.pid t.model).svg = true) :
    to_call active (runMerge active cache outcome) = [] := by
  rw [show to_call active (runMerge active cache outcome)
      = active.flatMap (fun pid =>
          (ALL_MODELS_ORDERED.filter (fun mp =>
            (dictGet (runMerge active cache outcome) (cache_key pid mp.1)).isNone)).map
          (fun mp => ⟨pid, mp.1, mp.2⟩)) from rfl]
  rw [List.flatMap_eq_nil_iff]
  intro pid hpid
  rw [List.map_eq_nil_iff, List.filter_eq_nil_iff]
  intro mp hmp
  intro hnone
  rw [Option.isNone_iff_eq_none] at hnone
  have hsome : (dictGet (runMerge active cache outcome) (cache_key pid mp.1)).isSome
      = true := by
    cases hc : dictGet cache (cache_key pid mp.1) with
    | some v =>
        exact mergeResults_isSome_mono _ cache _ (by simp [hc])
    | none =>
        have ht : (⟨pid, mp.1, mp.2⟩ : Task) ∈ to_call active cache :=
          (mem_to_call active cache _).2 ⟨hpid, hmp, hc⟩
        exact mergeResults_isSome_of_mem _ cache _ ⟨pid, mp.1, mp.2⟩ _
          (List.mem_map.2 ⟨_, ht, rfl⟩) rfl (h _ ht)
  rw [hnone] at hsome
  cases hsome

/-! ### Roster facts and key uniqueness inside one batch -/

theorem roster_models_colon_free : ∀ mp ∈ ALL_MODELS_ORDERED, ':' ∉ mp.1.data := by
  decide

theorem roster_models_nodup : (ALL_MODELS_ORDERED.map Prod.fst).Nodup := by
  decide

theorem eq_snd_of_nodup_keys {α β : Type} [DecidableEq α] :
    ∀ (l : List (α × β)), (l.map Prod.fst).Nodup →
    ∀ (a : α) (b b' : β), (a, b) ∈ l → (a, b') ∈ l → b = b'
  | [], _, a, b, b', h, _ => by cases h
  | (x, y) :: tl, hnd, a, b, b', h₁, h₂ => by
      simp only [List.map_cons, List.nodup_cons] at hnd
      rcases List.mem_cons.1 h₁ with he₁ | ht₁ <;>
        rcases List.mem_cons.1 h₂ with he₂ | ht₂
      · rw [Prod.mk.injEq] at he₁ he₂
        rw [he₁.2, he₂.2]
      · rw [Prod.mk.injEq] at he₁
        exact absurd (List.mem_map.2 ⟨(a, b'), ht₂, by simp [he₁.1]⟩) hnd.1
      · rw [Prod.mk.injEq] at he₂
        exact absurd (List.mem_map.2 ⟨(a, b), ht₁, by simp [he₂.1]⟩) hnd.1
      · exact eq_snd_of_nodup_keys tl hnd.2 a b b' ht₁ ht₂

/-- Two tasks of one batch with equal cache keys are the same task: model
ids of the roster are colon-free, so the key determines the components, and
the roster maps each model to a single provider. -/
theorem to_call_key_unique {active : List String} {cache : Cache} {t t' : Task}
    (ht : t ∈ to_call active cache) (ht' : t' ∈ to_call active cache)
    (hk : cache_key t'.pid t'.model = cache_key t.pid t.model) : t' = t := by
  obtain ⟨-, hm, -⟩ := (mem_to_call active cache t).1 ht
  obtain ⟨-, hm', -⟩ := (mem_to_call active cache t').1 ht'
  have hcf : ':' ∉ t.model.data := roster_models_colon_free (t.model, t.provider) hm
  have hcf' : ':' ∉ t'.model.data := roster_models_colon_free (t'.model, t'.provider) hm'
  obtain ⟨hp, hmeq⟩ := cache_key_inj_model hcf' hcf hk
  have hprov : t'.provider = t.provider :=
    eq_snd_of_nodup_keys ALL_MODELS_ORDERED roster_models_nodup t'.model _ _
      hm' (by rw [hmeq]; exact hm)
  cases t; cases t'
  simp_all

/-! ## Claim C2 -/

/-- C2, counterexample: over arbitrary component strings the composed cache
key is NOT injective — the separator `::` is legal inside a component, so
the distinct pairs `("a::b", "c")` and `("a", "b::c")` collide on the key
`"a::b::c"`.  The code performs no validation of the components. -/
theorem C2_counterexample :
    cache_key "a::b" "c" = cache_key "a" "b::c"
      ∧ ("a::b", "c") ≠ (("a" : String), ("b::c" : String)) := by
  constructor
  · rfl
  · decide

/-- C2 (amended): `cache_key` is injective on pairs whose `prompt_id`
components are colon-free (equivalently, whose `model_id` components are
colon-free), and every prompt id of the catalog and every model id of the
roster is in fact colon-free, so distinct tasks actually built by the
program always receive distinct cache keys. -/
theorem C2_key_injective :
    (∀ p₁ m₁ p₂ m₂ : String, ':' ∉ p₁.data → ':' ∉ p₂.data →
        cache_key p₁ m₁ = cache_key p₂ m₂ → p₁ = p₂ ∧ m₁ = m₂)
      ∧ (∀ p ∈ PROMPT_IDS, ':' ∉ p.data)
      ∧ (∀ mp ∈ ALL_MODELS_ORDERED, ':' ∉ mp.1.data) := by
  refine ⟨fun p₁ m₁ p₂ m₂ h₁ h₂ h => cache_key_inj h₁ h₂ h, ?_, ?_⟩
  · decide
  · decide

/-- C2 witness: the amended theorem applied at a concrete colon-free pair. -/
theorem C2_key_injective_witness :
    ("pelican" : String) = "pelican" ∧ ("gpt-5.2-codex" : String) = "gpt-5.2-codex" :=
  C2_key_injective.1 "pelican" "gpt-5.2-codex" "pelican" "gpt-5.2-codex"
    (by decide) (by decide) rfl

/-! ## Claim C3 -/

/-- C3: `extract_svg` agrees everywhere with the spec's extraction rule
(first position where a case-insensitive `<svg` opens with some later
`</svg>`, extended by the shortest span to a closing tag, newlines
included); on the two-tag specimen it returns exactly the first, shortest
match `"<svg>A</svg>"`; and when no such substring exists in a successful
response, `call_gemini` yields a failure result with the fixed
`"No SVG found in response"` error and no artifact. -/
theorem C3_extraction_first_shortest :
    (∀ text : String, extract_svg text = extract_svg_spec text)
      ∧ extract_svg "noise <svg>A</svg> more noise <svg>B</svg>" = "<svg>A</svg>"
      ∧ (∀ (env : GeminiEnv) (text : String),
          env.clientInit (pyGetOr env.google_key (env.gemini_key.getD "")) = .ok () →
          env.response = .ok text →
          extract_svg text = "" →
          call_gemini env = .ok { provider := "Gemini", svg := none,
                                  error := some "No SVG found in response" }) := by
  refine ⟨extract_svg_eq_spec, by decide, ?_⟩
  intro env text hci hresp hex
  unfold call_gemini
  simp only []
  rw [hci, hresp]
  simp [hex]

/-- C3 witness: the adapter-failure clause at a concrete environment whose
response carries no SVG fragment. -/
theorem C3_extraction_first_shortest_witness :
    call_gemini { google_key := some "k", gemini_key := none,
                  clientInit := fun _ => .ok (), duration := 0,
                  response := .ok "no markup at all" }
      = .ok { provider := "Gemini", svg := none,
              error := some "No SVG found in response" } :=
  C3_extraction_first_shortest.2.2
    { google_key := some "k", gemini_key := none,
      clientInit := fun _ => .ok (), duration := 0,
      response := .ok "no markup at all" }
    "no markup at all" rfl rfl (by decide)

/-! ## Claim C4 -/

/-- The failing input for C4: both `GOOGLE_API_KEY` and `GEMINI_API_KEY`
absent from the process environment.  `genai.Client` raises on an empty
key, and that call sits on line 352, BEFORE the `try` of line 354. -/
def missingKeyEnv : GeminiEnv :=
  { google_key := none, gemini_key := none,
    clientInit := fun k =>
      if k = "" then .error "Missing key inputs argument!" else .ok (),
    duration := 0,
    response := .ok "<svg></svg>" }

/-- C4 (code bug): the `try` block of `call_gemini` does not cover the API
key lookup and client construction, so any exception raised by
`genai.Client` — in particular the missing-key error when both environment
variables are absent — propagates out of the adapter instead of becoming a
`Result`, contrary to the claim and to the spec's propagation policy. -/
theorem C4_gemini_exception_escapes :
    (∀ (env : GeminiEnv) (e : String),
        env.clientInit (pyGetOr env.google_key (env.gemini_key.getD "")) = .error e →
        call_gemini env = .error e)
      ∧ call_gemini missingKeyEnv = .error "Missing key inputs argument!" := by
  constructor
  · intro env e h
    unfold call_gemini
    simp only []
    rw [h]
  · rfl

/-- C4 witness: the propagation fact applied at the missing-key environment. -/
theorem C4_gemini_exception_escapes_witness :
    call_gemini missingKeyEnv = .error "Missing key inputs argument!" :=
  C4_gemini_exception_escapes.1 missingKeyEnv "Missing key inputs argument!" rfl

/-! ## Claim C5 -/

/-- C5: the two subprocess adapters enforce distinct hard timeouts (600s for
claude, 300s for codex); when the subprocess run exceeds the budget the
adapter kills it (`killed = true`) and resolves to a failure `Result` with
the literal timeout error and no artifact; and the remote-API adapter's
outcome is independent of how long its call takes — it enforces no timeout
of its own. -/
theorem C5_subprocess_timeouts :
    CLAUDE_TIMEOUT = 600 ∧ CODEX_TIMEOUT = 300
      ∧ (∀ (d : Nat) (rc : Int) (out err : String), CLAUDE_TIMEOUT < d →
          call_claude (.proc d rc out err)
            = ⟨{ provider := "Claude", svg := none,
                 error := some "Timed out after 600s" }, true⟩)
      ∧ (∀ (d : Nat) (rc : Int) (out err : String), CODEX_TIMEOUT < d →
          call_codex (.proc d rc out err)
            = ⟨{ provider := "Codex", svg := none,
                 error := some "Timed out after 300s" }, true⟩)
      ∧ (∀ (env : GeminiEnv) (d₁ d₂ : Nat),
          call_gemini { env with duration := d₁ }
            = call_gemini { env with duration := d₂ }) := by
  refine ⟨rfl, rfl, ?_, ?_, ?_⟩
  · intro d rc out err h
    simp only [call_claude, if_pos h]
    rfl
  · intro d rc out err h
    simp only [call_codex, _codex_inner, if_pos h]
    rfl
  · intro env d₁ d₂
    rfl

/-- C5 witness: both subprocess timeout clauses at concrete over-budget runs. -/
theorem C5_subprocess_timeouts_witness :
    call_claude (.proc 601 0 "ignored" "ignored")
        = ⟨{ provider := "Claude", svg := none,
             error := some "Timed out after 600s" }, true⟩
      ∧ call_codex (.proc 301 0 "ignored" "ignored")
        = ⟨{ provider := "Codex", svg := none,
             error := some "Timed out after 300s" }, true⟩ :=
  ⟨C5_subprocess_timeouts.2.2.1 601 0 "ignored" "ignored" (by decide),
   C5_subprocess_timeouts.2.2.2.1 301 0 "ignored" "ignored" (by decide)⟩

/-! ## Claim C1 -/

/-- C1: in the merge step of `main`, a completed task's result is written
into the cache at the task's key exactly when its artifact is present: a
result with a (non-empty) artifact is stored at the key — unchanged except
for the provider overwrite of line 995 — while a result without an artifact
is never written, the key stays absent, and the task therefore reappears in
any later run's task matrix covering its prompt. -/
theorem C1_cache_iff_artifact :
    ∀ (active : List String) (cache : Cache) (outcome : String → String → Result)
      (t : Task), t ∈ to_call active cache →
      ((∀ s, (outcome t.pid t.model).svg = some s → s ≠ "" →
          dictGet (runMerge active cache outcome) (cache_key t.pid t.model)
            = some { outcome t.pid t.model with provider := t.provider })
        ∧ ((outcome t.pid t.model).svg = none →
            dictGet (runMerge active cache outcome) (cache_key t.pid t.model) = none
              ∧ ∀ active', t.pid ∈ active' →
                  t ∈ to_call active' (runMerge active cache outcome))) := by
  intro active cache outcome t ht
  obtain ⟨hpid, hm, hnone⟩ := (mem_to_call active cache t).1 ht
  constructor
  · intro s hs hne
    have htru : truthyOpt (outcome t.pid t.model).svg = true := by
      simp [truthyOpt, hs, hne]
    refine mergeResults_get_write _ cache _ t (outcome t.pid t.model)
      (List.mem_map.2 ⟨t, ht, rfl⟩) rfl htru ?_
    rintro tr htr hkey -
    obtain ⟨t', ht', rfl⟩ := List.mem_map.1 htr
    have := to_call_key_unique ht ht' hkey
    subst this
    rfl
  · intro hs
    have hget : dictGet (runMerge active cache outcome) (cache_key t.pid t.model)
        = none := by
      rw [runMerge, mergeResults_get_frame _ cache _ ?_]
      · exact hnone
      · rintro tr htr
        obtain ⟨t', ht', rfl⟩ := List.mem_map.1 htr
        by_cases hkey : cache_key t'.pid t'.model = cache_key t.pid t.model
        · have := to_call_key_unique ht ht' hkey
          subst this
          exact Or.inr (by simp [truthyOpt, hs])
        · exact Or.inl hkey
    refine ⟨hget, fun active' hpid' => ?_⟩
    exact (mem_to_call active' _ t).2 ⟨hpid', hm, hget⟩

/-- C1 witness: one uncached task whose artifact is present is written at
its key with the provider overwritten. -/
theorem C1_cache_iff_artifact_witness :
    dictGet
        (runMerge ["pelican"] []
          (fun _ _ => { provider := "X", svg := some "<svg/>", error := none }))
        (cache_key "pelican" "gemini-3-flash-preview")
      = some { provider := "Gemini", svg := some "<svg/>", error := none } :=
  (C1_cache_iff_artifact ["pelican"] []
    (fun _ _ => { provider := "X", svg := some "<svg/>", error := none })
    ⟨"pelican", "gemini-3-flash-preview", "Gemini"⟩ (by decide)).1
    "<svg/>" rfl (by decide)

/-! ## Claim C6 -/

/-- C6: the task matrix contains exactly the (prompt, model) pairs of the
requested scope whose cache key is absent; it is a sublist of the full
prompt-major matrix (prompts in requested order, models in the fixed
Gemini→Claude→Codex roster order), so the order is stable; cached pairs are
counted (`cached_count`) rather than re-submitted, the two tallies summing
to the full matrix size; and a run in which every submitted task produced an
artifact leaves nothing to submit: the next matrix over the same scope is
empty. -/
theorem C6_task_matrix :
    (∀ (active : List String) (cache : Cache) (t : Task),
        t ∈ to_call active cache
          ↔ t.pid ∈ active ∧ (t.model, t.provider) ∈ ALL_MODELS_ORDERED
              ∧ dictGet cache (cache_key t.pid t.model) = none)
      ∧ (∀ (active : List String) (cache : Cache),
          List.Sublist (to_call active cache) (fullMatrix active))
      ∧ (∀ (active : List String) (cache : Cache),
          cached_count active cache + (to_call active cache).length
            = active.length * ALL_MODELS_ORDERED.length)
      ∧ (∀ (active : List String) (cache : Cache)
          (outcome : String → String → Result),
          (∀ t ∈ to_call active cache, truthyOpt (outcome t.pid t.model).svg = true) →
          to_call active (runMerge active cache outcome) = []) :=
  ⟨mem_to_call, to_call_sublist, cached_count_add_to_call, to_call_after_success⟩

/-- C6 witness: an all-success run over one prompt and the empty cache
leaves an empty second-run matrix. -/
theorem C6_task_matrix_witness :
    to_call ["pelican"]
        (runMerge ["pelican"] []
          (fun _ _ => { provider := "X", svg := some "<svg/>", error := none }))
      = [] :=
  C6_task_matrix.2.2.2 ["pelican"] []
    (fun _ _ => { provider := "X", svg := some "<svg/>", error := none })
    (by decide)

/-! ## Claim C8 -/

/-- C8: the load → merge → save cycle preserves every pre-existing cache
entry unchanged — including entries under unknown keys from a previous
schema, since the merge only ever inserts at keys of the batch's tasks, all
of which were absent from the loaded store; and every entry of the saved
full mapping is either a pre-existing entry or a newly completed task's
result with an artifact. -/
theorem C8_full_mapping_round_trip :
    ∀ (active : List String) (cache : Cache) (outcome : String → String → Result),
      (∀ (k : String) (v : Result), dictGet cache k = some v →
          dictGet (runMerge active cache outcome) k = some v)
        ∧ (∀ (k : String) (v : Result),
            dictGet (runMerge active cache outcome) k = some v →
            dictGet cache k = some v
              ∨ ∃ t ∈ to_call active cache, k = cache_key t.pid t.model
                  ∧ truthyOpt v.svg = true
                  ∧ v = { outcome t.pid t.model with provider := t.provider }) := by
  intro active cache outcome
  constructor
  · intro k v hv
    refine mergeResults_get_preserve _ cache k v hv ?_
    rintro tr htr hkey -
    obtain ⟨t', ht', rfl⟩ := List.mem_map.1 htr
    obtain ⟨-, -, hnone⟩ := (mem_to_call active cache t').1 ht'
    rw [hkey] at hnone
    rw [hnone] at hv
    cases hv
  · intro k v hv
    rcases mergeResults_get_cases _ cache k v hv with hold | ⟨tr, htr, hk, htru, hveq⟩
    · exact Or.inl hold
    · obtain ⟨t', ht', rfl⟩ := List.mem_map.1 htr
      refine Or.inr ⟨t', ht', hk, ?_, hveq⟩
      rw [hveq]
      simpa using htru

/-- C8 witness: an entry under a key unknown to the current schema survives
a run in which every task fails. -/
theorem C8_full_mapping_round_trip_witness :
    dictGet
        (runMerge ["pelican"]
          [("legacy-key", { provider := "Old", svg := some "<svg old/>", error := none })]
          (fun _ _ => { provider := "X", svg := none, error := some "boom" }))
        "legacy-key"
      = some { provider := "Old", svg := some "<svg old/>", error := none } :=
  (C8_full_mapping_round_trip ["pelican"]
    [("legacy-key", { provider := "Old", svg := some "<svg old/>", error := none })]
    (fun _ _ => { provider := "X", svg := none, error := some "boom" })).1
    "legacy-key" { provider := "Old", svg := some "<svg old/>", error := none } rfl

/-! ## Claim C9 -/

/-- C9, counterexample: the report does NOT embed the cached fragment
unmodified — `build_html` passes each card's fragment through
`sanitize_svg`, which strips `<script>…</script>` spans, so a fragment
containing a script element is embedded in altered form. -/
theorem C9_counterexample :
    embedded_svg
        [(cache_key "p" "m",
          { provider := "Codex", svg := some "<svg><script>a</script></svg>",
            error := none })]
        "p" "m"
      ≠ "<svg><script>a</script></svg>" := by
  decide

/-- C9 (amended): the cache stores the extracted fragment unmodified (only
the provider field of the result is overwritten), and the rendered report
embeds `sanitize_svg` of that fragment — which strips `<script>` elements
and is the identity exactly on fragments with no case-insensitive
occurrence of `<script`. -/
theorem C9_content_unmodified_except_scripts :
    ∀ (active : List String) (cache : Cache) (outcome : String → String → Result)
      (t : Task), t ∈ to_call active cache →
      ∀ s, (outcome t.pid t.model).svg = some s → s ≠ "" →
        (∃ r, dictGet (runMerge active cache outcome) (cache_key t.pid t.model)
              = some r ∧ r.svg = some s)
          ∧ embedded_svg (runMerge active cache outcome) t.pid t.model
              = sanitize_svg s
          ∧ (containsCI scriptOpen s.data = false →
              embedded_svg (runMerge active cache outcome) t.pid t.model = s) := by
  intro active cache outcome t ht s hs hne
  have htru : truthyOpt (outcome t.pid t.model).svg = true := by
    simp [truthyOpt, hs, hne]
  have hwrite : dictGet (runMerge active cache outcome) (cache_key t.pid t.model)
      = some { outcome t.pid t.model with provider := t.provider } := by
    refine mergeResults_get_write _ cache _ t (outcome t.pid t.model)
      (List.mem_map.2 ⟨t, ht, rfl⟩) rfl htru ?_
    rintro tr htr hkey -
    obtain ⟨t', ht', rfl⟩ := List.mem_map.1 htr
    have := to_call_key_unique ht ht' hkey
    subst this
    rfl
  have hemb : embedded_svg (runMerge active cache outcome) t.pid t.model
      = sanitize_svg s := by
    unfold embedded_svg
    rw [hwrite]
    simp [hs]
  exact ⟨⟨_, hwrite, by simpa using hs⟩, hemb,
    fun hnoscript => by rw [hemb, sanitize_svg_id s hnoscript]⟩

/-- C9 witness: a script-free fragment round-trips into the report exactly. -/
theorem C9_content_unmodified_except_scripts_witness :
    embedded_svg
        (runMerge ["pelican"] []
          (fun _ _ => { provider := "X", svg := some "<svg><rect/></svg>",
                        error := none }))
        "pelican" "gemini-3-flash-preview"
      = "<svg><rect/></svg>" :=
  ((C9_content_unmodified_except_scripts ["pelican"] []
    (fun _ _ => { provider := "X", svg := some "<svg><rect/></svg>", error := none })
    ⟨"pelican", "gemini-3-flash-preview", "Gemini"⟩ (by decide)
    "<svg><rect/></svg>" rfl (by decide)).2.2 (by decide))

/-! ## Claim C10 -/

/-- The shape every adapter result has: either a non-empty artifact and no
error, or no artifact and an error string.  An empty extraction is
normalized away by `svg or None`. -/
def Normalized (r : Result) : Prop :=
  (∃ s, r.svg = some s ∧ s ≠ "" ∧ r.error = none)
    ∨ (r.svg = none ∧ ∃ e, r.error = some e)

/-- C10: every `Result` actually returned by any of the three adapters is
normalized — non-empty artifact with no error, or no artifact with an error
string (an extraction yielding `""` becomes `svg = None` with the fixed
error) — and consequently every entry newly written to the cache by a run
carries a non-empty artifact. -/
theorem C10_result_normalized :
    (∀ (env : GeminiEnv) (r : Result), call_gemini env = .ok r → Normalized r)
      ∧ (∀ s : SpawnResult, Normalized (call_claude s).result)
      ∧ (∀ s : SpawnResult, Normalized (call_codex s).result)
      ∧ (∀ (active : List String) (cache : Cache)
          (outcome : String → String → Result) (k : String) (r : Result),
          dictGet cache k = none →
          dictGet (runMerge active cache outcome) k = some r →
          ∃ s, r.svg = some s ∧ s ≠ "") := by
  refine ⟨?_, ?_, ?_, ?_⟩
  · intro env r h
    unfold call_gemini at h
    simp only [] at h
    cases hci : env.clientInit (pyGetOr env.google_key (env.gemini_key.getD "")) with
    | error e =>
        rw [hci] at h
        have h' : (Except.error e : Except String Result) = .ok r := h
        cases h'
    | ok u =>
        rw [hci] at h
        cases hresp : env.response with
        | error e =>
            rw [hresp] at h
            have h' : (Except.ok { provider := "Gemini", svg := none, error := some e }
                : Except String Result) = .ok r := h
            injection h' with h'
            exact Or.inr ⟨by rw [← h'], e, by rw [← h']⟩
        | ok text =>
            rw [hresp] at h
            have h' : (Except.ok
                { provider := "Gemini",
                  svg := if extract_svg text = "" then none else some (extract_svg text),
                  error := if extract_svg text = "" then some "No SVG found in response"
                           else none } : Except String Result) = .ok r := h
            injection h' with h'
            by_cases hx : extract_svg text = ""
            · rw [if_pos hx, if_pos hx] at h'
              exact Or.inr ⟨by rw [← h'], _, by rw [← h']⟩
            · rw [if_neg hx, if_neg hx] at h'
              exact Or.inl ⟨extract_svg text, by rw [← h'], hx, by rw [← h']⟩
  · intro s
    cases s with
    | fail msg => exact Or.inr ⟨rfl, msg, rfl⟩
    | proc d rc out err =>
        simp only [call_claude]
        by_cases hd : CLAUDE_TIMEOUT < d
        · rw [if_pos hd]
          exact Or.inr ⟨rfl, _, rfl⟩
        · rw [if_neg hd]
          by_cases hrc : rc ≠ 0
          · rw [if_pos hrc]
            exact Or.inr ⟨rfl, _, rfl⟩
          · rw [if_neg hrc]
            by_cases hx : extract_svg out = ""
            · simp only [hx, if_pos rfl]
              exact Or.inr ⟨rfl, _, rfl⟩
            · simp only [if_neg hx]
              exact Or.inl ⟨extract_svg out, rfl, hx, rfl⟩
  · intro s
    cases s with
    | fail msg => exact Or.inr ⟨rfl, msg, rfl⟩
    | proc d rc out err =>
        simp only [call_codex, _codex_inner]
        by_cases hd : CODEX_TIMEOUT < d
        · rw [if_pos hd]
          exact Or.inr ⟨rfl, _, rfl⟩
        · rw [if_neg hd]
          by_cases hrc : rc ≠ 0
          · rw [if_pos hrc]
            exact Or.inr ⟨rfl, _, rfl⟩
          · rw [if_neg hrc]
            by_cases hx : extract_svg out = ""
            · simp only [hx, if_pos rfl]
              exact Or.inr ⟨rfl, _, rfl⟩
            · simp only [if_neg hx]
              exact Or.inl ⟨extract_svg out, rfl, hx, rfl⟩
  · intro active cache outcome k r hnone hsome
    rcases mergeResults_get_cases _ cache k r hsome with hold | ⟨tr, -, -, htru, hveq⟩
    · rw [hnone] at hold; cases hold
    · rw [hveq]
      simp only [svg_provider_update]
      cases hts : tr.2.svg with
      | none => rw [hts] at htru; cases htru
      | some s =>
          refine ⟨s, rfl, ?_⟩
          rw [hts] at htru
          simpa [truthyOpt] using htru

/-- C10 witness: a successful gemini call with a well-formed fragment
produces a normalized success result. -/
theorem C10_result_normalized_witness :
    Normalized { provider := "Gemini", svg := some "<svg>A</svg>", error := none } :=
  C10_result_normalized.1
    { google_key := some "k", gemini_key := none,
      clientInit := fun _ => .ok (), duration := 0,
      response := .ok "pre <svg>A</svg> post" }
    { provider := "Gemini", svg := some "<svg>A</svg>", error := none } rfl

/-! ## Claim C7 -/

theorem countP_set_balance {α : Type} (p : α → Bool) : ∀ (l : List α) (i : Nat)
    (a b : α), l.get? i = some a →
    (l.set i b).countP p + (if p a then 1 else 0)
      = l.countP p + (if p b then 1 else 0)
  | [], i, a, b, h => by simp [List.get?] at h
  | x :: l, 0, a, b, h => by
      injection h with h
      subst h
      simp only [List.set, List.countP_cons]
      omega
  | x :: l, i + 1, a, b, h => by
      have ih := countP_set_balance p l i a b h
      simp only [List.set, List.countP_cons]
      omega

/-- The semaphore invariant: the free slot count plus the number of codex
tasks currently inside their external call is the semaphore's capacity 1. -/
theorem gov_invariant (fams : List Fam) (s : GovState) (h : Reachable fams s) :
    s.sem + codexRunning s = 1 := by
  induction h with
  | init =>
      have hz : codexRunning (initState fams) = 0 := by
        rw [codexRunning, List.countP_eq_zero]
        intro a ha
        simp only [initState] at ha
        obtain ⟨f, -, rfl⟩ := List.mem_map.1 ha
        simp
      rw [hz]
      rfl
  | @step s' t' hr hstep ih =>
      cases hstep with
      | acquire i hi hsem =>
          have hbal := countP_set_balance
            (fun p => p.1 == Fam.codex && p.2 == TState.running) s'.tasks i
            (Fam.codex, TState.waiting) (Fam.codex, TState.running) hi
          simp only [codexRunning] at ih ⊢
          simp at hbal
          omega
      | enter i f hf hi =>
          have hbal := countP_set_balance
            (fun p => p.1 == Fam.codex && p.2 == TState.running) s'.tasks i
            (f, TState.waiting) (f, TState.running) hi
          have hfb : (f == Fam.codex) = false := by
            simp [hf]
          simp only [codexRunning] at ih ⊢
          simp [hfb] at hbal
          omega
      | finishCodex i hi =>
          have hbal := countP_set_balance
            (fun p => p.1 == Fam.codex && p.2 == TState.running) s'.tasks i
            (Fam.codex, TState.running) (Fam.codex, TState.finished) hi
          simp only [codexRunning] at ih ⊢
          simp at hbal
          omega
      | finishOther i f hf hi =>
          have hbal := countP_set_balance
            (fun p => p.1 == Fam.codex && p.2 == TState.running) s'.tasks i
            (f, TState.running) (f, TState.finished) hi
          have hfb : (f == Fam.codex) = false := by
            simp [hf]
          simp only [codexRunning] at ih ⊢
          simp [hfb] at hbal
          omega

/-- C7: in every reachable state of the gated batch, at most one codex task
is inside its external call — two codex subprocess executions never overlap
— while the ungated families may overlap freely: a state with two claude
tasks simultaneously in-call is reachable. -/
theorem C7_codex_mutual_exclusion :
    (∀ (fams : List Fam) (s : GovState), Reachable fams s → codexRunning s ≤ 1)
      ∧ Reachable [Fam.claude, Fam.claude]
          ⟨1, [(Fam.claude, TState.running), (Fam.claude, TState.running)]⟩ := by
  constructor
  · intro fams s h
    have := gov_invariant fams s h
    omega
  · have h₁ : Step (initState [Fam.claude, Fam.claude])
        ⟨1, [(Fam.claude, TState.running), (Fam.claude, TState.waiting)]⟩ :=
      Step.enter (initState [Fam.claude, Fam.claude]) 0 Fam.claude (by decide) rfl
    have h₂ : Step ⟨1, [(Fam.claude, TState.running), (Fam.claude, TState.waiting)]⟩
        ⟨1, [(Fam.claude, TState.running), (Fam.claude, TState.running)]⟩ :=
      Step.enter ⟨1, [(Fam.claude, TState.running), (Fam.claude, TState.waiting)]⟩
        1 Fam.claude (by decide) rfl
    exact Reachable.step (Reachable.step Reachable.init h₁) h₂

/-- C7 witness: the mutual-exclusion bound applied at a concrete reachable
state with one codex task in its call. -/
theorem C7_codex_mutual_exclusion_witness :
    codexRunning ⟨0, [(Fam.codex, TState.running)]⟩ ≤ 1 :=
  C7_codex_mutual_exclusion.1 [Fam.codex] ⟨0, [(Fam.codex, TState.running)]⟩
    (Reachable.step Reachable.init
      (Step.acquire (initState [Fam.codex]) 0 rfl (by decide)))

end SvgCompare
